import Mathlib

/-!
Verification development for the Research-Work-BPV repository.

The repository consists of three Python scripts that post-process the
output of the SUMO traffic simulator:

* `MOD1/network_analyzer.py` — parses a SUMO network XML file
  (junctions and edges), computes Euclidean distances between junction
  coordinates, and reports per-edge and aggregate length statistics.
* `MOD4/vehicle_monitor.py` — reads FCD / trip-info / battery /
  charging-station XML output files and prints reports; also provides a
  polling loop that re-reads a file when its size has grown, and a small
  CLI dispatcher.
* `MOD4/run_simulation.py` — drives a live SUMO run over TraCI and
  collects per-timestep vehicle records (`_collect_data`).

The embedding below models Python floats as rationals (every Python
float value is a rational number; arithmetic is idealized), with the one
exception of `math.sqrt`, which is modelled as `Real.sqrt` on the real
numbers.  XML attribute access `elem.get(k)` yields `Option` values
(`none` = attribute absent), and Python truthiness of strings
(`None` and `""` are falsy) is modelled explicitly.  Exceptions raised
inside a `try:` block are modelled with `Except`.
-/

namespace NetworkAnalyzer

/-- A `<junction>` element of the network file, as used by
`analyze_network`: `id = junction.get('id')` (may be absent), and the
coordinates `float(junction.get('x', 0))`, `float(junction.get('y', 0))`
with their default `0` already applied. -/
structure Junction where
  id : Option String
  x : ℚ
  y : ℚ
deriving DecidableEq, Repr

/-- A `<lane>` child element: `float(lane.get('length', 0))` with the
default already applied. -/
structure Lane where
  length : ℚ
deriving DecidableEq, Repr

/-- An `<edge>` element: `id`, `from`, `to` attributes (each possibly
absent) and the first `<lane>` child found by `edge.find('lane')`. -/
structure Edge where
  id : Option String
  «from» : Option String
  «to» : Option String
  lane : Option Lane
deriving DecidableEq, Repr

/-- One row of the `connections` list built by `analyze_network`. -/
structure Connection where
  edge : Option String
  «from» : Option String
  «to» : Option String
  declared : ℚ
  calculated : ℝ

/-- Python truthiness of an `elem.get(...)` result: `None` and the
empty string are falsy, every other string is truthy. -/
def pyTruthy : Option String → Bool
  | none => false
  | some s => s ≠ ""

/-- `s.startswith(':')` for the one-character prefix `':'`: true iff
the first character of `s` is `':'`. -/
def startsWithColon (s : String) : Bool :=
  match s.data with
  | [] => false
  | c :: _ => c == ':'

/-- `edge_id and edge_id.startswith(':')`: the skip test for internal
edges.  When `edge_id` is falsy the conjunction is falsy and the edge is
not skipped. -/
def isInternal (id : Option String) : Bool :=
  pyTruthy id && (match id with
    | none => false
    | some s => startsWithColon s)

/-- Membership test `k in nodes` for the dict built from the junction
list (keys are the raw `junction.get('id')` values). -/
def nodeMem (js : List Junction) (k : Option String) : Bool :=
  js.any (fun j => j.id == k)

/-- Lookup `nodes[k]` in the dict built by the junction loop.  Python
dict assignment overwrites, so the *last* junction with a given id
wins. -/
def nodeFind (js : List Junction) (k : Option String) : Option Junction :=
  js.reverse.find? (fun j => j.id == k)

/-- `declared_length`: `float(lane.get('length', 0))` when
`edge.find('lane')` found a lane, else the initial `0`. -/
def declaredLength (e : Edge) : ℚ :=
  match e.lane with
  | none => 0
  | some l => l.length

/-- The row appended for an edge that passes the guard: declared length
from the lane, calculated length
`math.sqrt((x2-x1)**2 + (y2-y1)**2)` from the coordinates stored in the
nodes dict for the `from` and `to` ids. -/
noncomputable def mkConn (js : List Junction) (e : Edge) : Connection :=
  let j1 := (nodeFind js e.«from»).getD ⟨none, 0, 0⟩
  let j2 := (nodeFind js e.«to»).getD ⟨none, 0, 0⟩
  { edge := e.id
    «from» := e.«from»
    «to» := e.«to»
    declared := declaredLength e
    calculated := Real.sqrt ((((j2.x - j1.x) ^ 2 + (j2.y - j1.y) ^ 2 : ℚ)) : ℝ) }

/-- The edge loop of `analyze_network`: skip internal edges
(`continue`), and append a row exactly when
`from_node and to_node and from_node in nodes and to_node in nodes`. -/
noncomputable def processEdges (js : List Junction) : List Edge → List Connection
  | [] => []
  | e :: rest =>
    if isInternal e.id then processEdges js rest
    else if pyTruthy e.«from» && pyTruthy e.«to»
            && nodeMem js e.«from» && nodeMem js e.«to» then
      mkConn js e :: processEdges js rest
    else processEdges js rest

/-- Python `sum(...)` over a generator of rationals (left fold from 0). -/
def pySumQ (l : List ℚ) : ℚ := l.foldl (· + ·) 0

/-- Python `sum(...)` over a generator of floats modelled as reals. -/
noncomputable def pySumR (l : List ℝ) : ℝ := l.foldl (· + ·) 0

/-- `conn['edge'] in main_route`: membership of the row's edge id in a
route list of strings (a `None` id is in no route). -/
def edgeInRoute (c : Connection) (route : List String) : Bool :=
  match c.edge with
  | none => false
  | some s => route.contains s

/-- `main_route = ['E0', 'E1', 'E2', 'E3']` -/
def main_route : List String := ["E0", "E1", "E2", "E3"]

/-- `alt_route = ['E4', 'E11', 'E10', 'E1', 'E2', 'E3']` -/
def alt_route : List String := ["E4", "E11", "E10", "E1", "E2", "E3"]

/-- Everything `analyze_network` computes from a successfully parsed
file: the `connections` list and the printed aggregate figures. -/
structure Report where
  connections : List Connection
  total_declared : ℚ
  total_calculated : ℝ
  main_distance : ℚ
  alt_distance : ℚ

/-- The body of `analyze_network` on a parsed tree, given its junction
and edge element lists. -/
noncomputable def analyze_core (js : List Junction) (es : List Edge) : Report :=
  let connections := processEdges js es
  { connections := connections
    total_declared := pySumQ (connections.map (·.declared))
    total_calculated := pySumR (connections.map (·.calculated))
    main_distance :=
      pySumQ ((connections.filter (fun c => edgeInRoute c main_route)).map (·.declared))
    alt_distance :=
      pySumQ ((connections.filter (fun c => edgeInRoute c alt_route)).map (·.declared)) }

/-- The outcome of `ET.parse(net_file)`: the file may be unreadable
(e.g. missing, raising an `OSError`), may fail XML parsing
(`ET.ParseError`), or yields a root element with its junction and edge
lists. -/
inductive NetFile where
  | ioError
  | parseError
  | parsed (js : List Junction) (es : List Edge)

/-- What `analyze_network` prints on its error paths. -/
inductive NetMsg where
  | parseErrorMsg
  | analyzeErrorMsg
  | reportMsg
deriving DecidableEq, Repr

/-- `analyze_network(net_file)`: on `ET.ParseError` print
"Error parsing network file" and return `None`; on any other exception
print "Error analyzing network" and return `None`; otherwise return the
connections (with the full report printed). -/
noncomputable def analyze_network (f : NetFile) : Option Report × NetMsg :=
  match f with
  | .ioError => (none, .analyzeErrorMsg)
  | .parseError => (none, .parseErrorMsg)
  | .parsed js es => (some (analyze_core js es), .reportMsg)

end NetworkAnalyzer

namespace NetworkAnalyzer

theorem connections_analyze_core (js : List Junction) (es : List Edge) :
    (analyze_core js es).connections = processEdges js es := rfl

theorem nodeFind_isSome_of_nodeMem (js : List Junction) (k : Option String)
    (h : nodeMem js k = true) : ∃ j, nodeFind js k = some j := by
  cases hf : nodeFind js k with
  | some j => exact ⟨j, rfl⟩
  | none =>
    exfalso
    rcases List.any_eq_true.mp h with ⟨j, hj, hjk⟩
    exact List.find?_eq_none.mp hf j (List.mem_reverse.mpr hj) hjk

theorem mem_processEdges (js : List Junction) (es : List Edge)
    (c : Connection) (hc : c ∈ processEdges js es) :
    ∃ e ∈ es, (pyTruthy e.«from» && pyTruthy e.«to»
      && nodeMem js e.«from» && nodeMem js e.«to») = true ∧ c = mkConn js e := by
  induction es with
  | nil => simp [processEdges] at hc
  | cons e rest ih =>
    by_cases h1 : isInternal e.id
    · rw [processEdges, if_pos h1] at hc
      rcases ih hc with ⟨e2, he2, hg, hce⟩
      exact ⟨e2, List.mem_cons_of_mem _ he2, hg, hce⟩
    · rw [processEdges, if_neg h1] at hc
      by_cases h2 : (pyTruthy e.«from» && pyTruthy e.«to»
          && nodeMem js e.«from» && nodeMem js e.«to») = true
      · rw [if_pos h2] at hc
        rcases List.mem_cons.mp hc with hce | hcr
        · exact ⟨e, List.mem_cons_self _ _, h2, hce⟩
        · rcases ih hcr with ⟨e2, he2, hg, hce⟩
          exact ⟨e2, List.mem_cons_of_mem _ he2, hg, hce⟩
      · rw [if_neg h2] at hc
        rcases ih hc with ⟨e2, he2, hg, hce⟩
        exact ⟨e2, List.mem_cons_of_mem _ he2, hg, hce⟩

end NetworkAnalyzer

open NetworkAnalyzer in
/-- C1: every row that `analyze_network` adds to its `connections` list
has a `calculated` field equal to the Euclidean distance
`sqrt((x2-x1)^2 + (y2-y1)^2)` between the coordinates of the row's
from-junction and to-junction as stored in the parsed nodes dict. -/
theorem c1_calculated_is_euclidean (js : List Junction) (es : List Edge)
    (c : Connection) (hc : c ∈ (analyze_core js es).connections) :
    ∃ j1 j2 : Junction,
      nodeFind js c.«from» = some j1 ∧ nodeFind js c.«to» = some j2 ∧
      c.calculated =
        Real.sqrt (((j2.x : ℝ) - (j1.x : ℝ)) ^ 2 + ((j2.y : ℝ) - (j1.y : ℝ)) ^ 2) := by
  rw [connections_analyze_core] at hc
  rcases mem_processEdges js es c hc with ⟨e, _, hg, hce⟩
  have hm1 : nodeMem js e.«from» = true := by
    simp only [Bool.and_eq_true] at hg; exact hg.1.2
  have hm2 : nodeMem js e.«to» = true := by
    simp only [Bool.and_eq_true] at hg; exact hg.2
  rcases nodeFind_isSome_of_nodeMem js e.«from» hm1 with ⟨j1, hj1⟩
  rcases nodeFind_isSome_of_nodeMem js e.«to» hm2 with ⟨j2, hj2⟩
  refine ⟨j1, j2, ?_, ?_, ?_⟩
  · rw [hce]; exact hj1
  · rw [hce]; exact hj2
  · rw [hce]
    show (mkConn js e).calculated = _
    unfold mkConn
    simp only [hj1, hj2, Option.getD_some]
    push_cast
    ring_nf

namespace NetworkAnalyzer

/-- A two-junction network with one edge, used as a concrete witness
input. -/
def jsW : List Junction := [⟨some "A", 0, 0⟩, ⟨some "B", 3, 4⟩]

/-- The single edge `E0` from junction `A` to junction `B` with a
declared lane length of 5. -/
def esW : List Edge := [⟨some "E0", some "A", some "B", some ⟨5⟩⟩]

/-- The connection row produced for `esW`. -/
noncomputable def cW : Connection := mkConn jsW ⟨some "E0", some "A", some "B", some ⟨5⟩⟩

/-- The junction list of the C4 counterexample: a single junction whose
id attribute is the empty string. -/
def js0 : List Junction := [⟨some "", 0, 0⟩]

/-- The edge list of the C4 counterexample: edge `E9` whose `from` and
`to` attributes are the empty string — which *is* the id of a parsed
junction, yet Python's truthiness test skips the edge. -/
def es0 : List Edge := [⟨some "E9", some "", some "", none⟩]

end NetworkAnalyzer

open NetworkAnalyzer in
/-- Witness for C1 at a concrete network: the row for edge `E0` from
`A = (0,0)` to `B = (3,4)` is in the connections list and its
`calculated` field is the Euclidean distance between those points. -/
theorem c1_witness :
    cW ∈ (analyze_core jsW esW).connections ∧
    ∃ j1 j2 : Junction,
      nodeFind jsW cW.«from» = some j1 ∧ nodeFind jsW cW.«to» = some j2 ∧
      cW.calculated =
        Real.sqrt (((j2.x : ℝ) - (j1.x : ℝ)) ^ 2 + ((j2.y : ℝ) - (j1.y : ℝ)) ^ 2) := by
  have hmem : cW ∈ (analyze_core jsW esW).connections := by
    have h : (analyze_core jsW esW).connections = [cW] := rfl
    rw [h]
    exact List.mem_singleton_self cW
  exact ⟨hmem, c1_calculated_is_euclidean jsW esW cW hmem⟩

open NetworkAnalyzer in
/-- Counterexample to C4 as stated: in the network `js0`/`es0`, edge
`E9` has an id that does not start with `':'` and its `from`/`to` node
ids (the empty string) are present among the parsed junctions, yet the
edge contributes no row: `from_node and to_node and ...` is falsy for
the empty string. -/
theorem c4_counterexample :
    ¬ (∀ (js : List Junction) (es : List Edge), ∀ e ∈ es,
        ((∃ c ∈ (analyze_core js es).connections, c.edge = e.id) ↔
          ((∀ s, e.id = some s → startsWithColon s = false) ∧
           (∃ j ∈ js, j.id = e.«from») ∧ (∃ j ∈ js, j.id = e.«to»)))) := by
  intro h
  have he : (⟨some "E9", some "", some "", none⟩ : Edge) ∈ es0 := by
    simp [es0]
  have hiff := h js0 es0 _ he
  have hrhs : (∀ s, (some "E9" : Option String) = some s → startsWithColon s = false) ∧
      (∃ j ∈ js0, j.id = some "") ∧ (∃ j ∈ js0, j.id = some "") := by
    refine ⟨?_, ⟨⟨some "", 0, 0⟩, by simp [js0]⟩, ⟨⟨some "", 0, 0⟩, by simp [js0]⟩⟩
    intro s hs
    cases hs
    decide
  have hconn : (analyze_core js0 es0).connections = [] := rfl
  rcases hiff.mpr hrhs with ⟨c, hc, _⟩
  rw [hconn] at hc
  exact List.not_mem_nil c hc

open NetworkAnalyzer in
/-- C4 (amended): an edge contributes a row iff it is not skipped as
internal (id truthy and starting with `':'`) and its `from` and `to`
attributes are truthy (present and non-empty) and both occur among the
parsed junction ids; the connections list is exactly the guard-filtered
edge list in order, so every other edge contributes nothing to the
output or the summary sums. -/
theorem c4_connections_eq_filtered_edges (js : List Junction) (es : List Edge) :
    (analyze_core js es).connections =
      (es.filter (fun e => !isInternal e.id && (pyTruthy e.«from» && pyTruthy e.«to»
        && nodeMem js e.«from» && nodeMem js e.«to»))).map (mkConn js) := by
  rw [connections_analyze_core]
  induction es with
  | nil => simp [processEdges]
  | cons e rest ih =>
    by_cases h1 : isInternal e.id
    · rw [processEdges, if_pos h1]
      rw [List.filter_cons]
      simp only [h1, Bool.not_true, Bool.false_and, if_neg (by simp : ¬ (false = true))]
      exact ih
    · rw [processEdges, if_neg h1]
      rw [List.filter_cons]
      by_cases h2 : (pyTruthy e.«from» && pyTruthy e.«to»
          && nodeMem js e.«from» && nodeMem js e.«to») = true
      · rw [if_pos h2]
        have : (!isInternal e.id && (pyTruthy e.«from» && pyTruthy e.«to»
            && nodeMem js e.«from» && nodeMem js e.«to»)) = true := by
          simp [h1, h2]
        rw [if_pos this, List.map_cons, ih]
      · rw [if_neg h2]
        have : ¬ ((!isInternal e.id && (pyTruthy e.«from» && pyTruthy e.«to»
            && nodeMem js e.«from» && nodeMem js e.«to»)) = true) := by
          simp only [Bool.and_eq_true, Bool.not_eq_true']
          intro hco
          exact h2 (by simp [hco.2])
        rw [if_neg this]
        exact ih

namespace NetworkAnalyzer

theorem pySumQ_eq_sum (l : List ℚ) : pySumQ l = l.sum := by
  rw [pySumQ, List.sum_eq_foldl]

theorem pySumR_eq_sum (l : List ℝ) : pySumR l = l.sum := by
  rw [pySumR, List.sum_eq_foldl]

theorem edgeInRoute_main (c : Connection) :
    edgeInRoute c main_route =
      decide (c.edge = some "E0" ∨ c.edge = some "E1" ∨ c.edge = some "E2"
        ∨ c.edge = some "E3") := by
  cases hc : c.edge with
  | none => simp [edgeInRoute, hc]
  | some s => simp [edgeInRoute, hc, main_route, List.contains, eq_comm]

theorem edgeInRoute_alt (c : Connection) :
    edgeInRoute c alt_route =
      decide (c.edge = some "E4" ∨ c.edge = some "E11" ∨ c.edge = some "E10"
        ∨ c.edge = some "E1" ∨ c.edge = some "E2" ∨ c.edge = some "E3") := by
  cases hc : c.edge with
  | none => simp [edgeInRoute, hc]
  | some s => simp [edgeInRoute, hc, alt_route, List.contains, eq_comm]

end NetworkAnalyzer

open NetworkAnalyzer in
/-- C6: the printed totals of `analyze_network` are the sums of the
`declared` resp. `calculated` fields over all connection rows, and the
main-route (resp. alternative-route) distance is the sum of the
declared lengths of exactly those rows whose edge id is one of
`E0,E1,E2,E3` (resp. `E4,E11,E10,E1,E2,E3`). -/
theorem c6_summary_sums (js : List Junction) (es : List Edge) :
    (analyze_core js es).total_declared
        = ((analyze_core js es).connections.map (·.declared)).sum
    ∧ (analyze_core js es).total_calculated
        = ((analyze_core js es).connections.map (·.calculated)).sum
    ∧ (analyze_core js es).main_distance
        = (((analyze_core js es).connections.filter (fun c =>
            decide (c.edge = some "E0" ∨ c.edge = some "E1" ∨ c.edge = some "E2"
              ∨ c.edge = some "E3"))).map (·.declared)).sum
    ∧ (analyze_core js es).alt_distance
        = (((analyze_core js es).connections.filter (fun c =>
            decide (c.edge = some "E4" ∨ c.edge = some "E11" ∨ c.edge = some "E10"
              ∨ c.edge = some "E1" ∨ c.edge = some "E2" ∨ c.edge = some "E3"))).map
            (·.declared)).sum := by
  refine ⟨?_, ?_, ?_, ?_⟩
  · show pySumQ _ = _
    rw [pySumQ_eq_sum]
    rfl
  · show pySumR _ = _
    rw [pySumR_eq_sum]
    rfl
  · show pySumQ _ = _
    rw [pySumQ_eq_sum]
    congr 2
    exact List.filter_congr (fun c _ => edgeInRoute_main c)
  · show pySumQ _ = _
    rw [pySumQ_eq_sum]
    congr 2
    exact List.filter_congr (fun c _ => edgeInRoute_alt c)

namespace VehicleMonitor

/-- A Python exception raised while processing parsed XML: `float(v)`
raises `TypeError` when `v` is `None` (attribute absent). -/
inductive PyErr where
  | typeError
deriving DecidableEq, Repr

/-- `float(elem.get(name))` with no default: raises when the attribute
is absent, otherwise yields the numeric value. -/
def pyFloat : Option ℚ → Except PyErr ℚ
  | none => .error .typeError
  | some q => .ok q

/-- The sequential effect of a Python `for` loop that transforms each
element and raises out of the whole loop on the first failure. -/
def mapME {α β : Type} (f : α → Except PyErr β) : List α → Except PyErr (List β)
  | [] => .ok []
  | x :: xs => do
    let y ← f x
    let ys ← mapME f xs
    pure (y :: ys)

/-- A monitored XML input file: missing from the filesystem, failing
XML parsing, or parsed into a root element. -/
inductive XmlFile (α : Type) where
  | absent
  | malformed
  | parsed (root : α)

/-- How one reader invocation ends: the not-found message, the message
printed by a generic `except Exception` handler, the message of
`read_battery_data`'s dedicated `except ET.ParseError` handler, or a
normal return with the printed report. -/
inductive ReadOutcome (α : Type) where
  | notFound
  | caught
  | parseSkip
  | ok (out : α)

/-- A `<vehicle>` element inside an FCD `<timestep>`. -/
structure FcdVehicle where
  id : Option String
  vtype : Option String
  x : Option ℚ
  y : Option ℚ
  speed : Option ℚ
  angle : Option ℚ

/-- A `<timestep>` element of the FCD file. -/
structure FcdTimestep where
  time : Option ℚ
  vehicles : List FcdVehicle

/-- The root of the FCD file: its `<timestep>` children. -/
structure FcdRoot where
  timesteps : List FcdTimestep

/-- A line printed by `read_fcd_data`. -/
inductive FcdLine where
  | timeHeader (t : ℚ)
  | vehicleLine (id : Option String) (vtype : String) (x y speed angle : ℚ)

/-- The per-vehicle body of the FCD loop: required float conversions of
`x`, `y`, `speed`, `angle`; `type` defaults to `'unknown'`. -/
def fcdVehicleLine (v : FcdVehicle) : Except PyErr FcdLine := do
  let x ← pyFloat v.x
  let y ← pyFloat v.y
  let speed ← pyFloat v.speed
  let angle ← pyFloat v.angle
  pure (.vehicleLine v.id (v.vtype.getD "unknown") x y speed angle)

/-- The timestep loop of `read_fcd_data`: a required float conversion
of `time`, a time header printed when `current_time != step_time`, then
the vehicle lines. -/
def fcdLoop (cur : Option ℚ) : List FcdTimestep → Except PyErr (List FcdLine)
  | [] => .ok []
  | ts :: rest => do
    let t ← pyFloat ts.time
    let header := if cur ≠ some t then [FcdLine.timeHeader t] else []
    let vlines ← mapME fcdVehicleLine ts.vehicles
    let restLines ← fcdLoop (some t) rest
    pure (header ++ vlines ++ restLines)

/-- `read_fcd_data(file_path)`: not-found message if the file does not
exist; otherwise the `try` body with every exception (including
`ET.ParseError`) caught by `except Exception`. -/
def read_fcd_data : XmlFile FcdRoot → ReadOutcome (List FcdLine)
  | .absent => .notFound
  | .malformed => .caught
  | .parsed r =>
    match fcdLoop none r.timesteps with
    | .error _ => .caught
    | .ok lines => .ok lines

/-- A `<tripinfo>` element. -/
structure TripInfo where
  id : Option String
  vType : Option String
  depart : Option ℚ
  arrival : Option ℚ
  duration : Option ℚ
  routeLength : Option ℚ
  maxSpeed : Option ℚ

/-- The root of the trip-info file. -/
structure TripRoot where
  tripinfos : List TripInfo

/-- The block printed for one `<tripinfo>` element, including the
computed `avg_speed`. -/
structure TripLine where
  id : Option String
  vType : Option String
  depart : ℚ
  arrival : ℚ
  duration : ℚ
  route_length : ℚ
  max_speed : ℚ
  avg_speed : ℚ

/-- The per-record body of the trip-info loop: required float
conversions, then
`avg_speed = route_length / duration if duration > 0 else 0`. -/
def tripLine (ti : TripInfo) : Except PyErr TripLine := do
  let depart ← pyFloat ti.depart
  let arrival ← pyFloat ti.arrival
  let duration ← pyFloat ti.duration
  let route_length ← pyFloat ti.routeLength
  let max_speed ← pyFloat ti.maxSpeed
  pure { id := ti.id, vType := ti.vType, depart := depart, arrival := arrival,
         duration := duration, route_length := route_length,
         max_speed := max_speed,
         avg_speed := if duration > 0 then route_length / duration else 0 }

/-- `read_tripinfo_data(file_path)`. -/
def read_tripinfo_data : XmlFile TripRoot → ReadOutcome (List TripLine)
  | .absent => .notFound
  | .malformed => .caught
  | .parsed r =>
    match mapME tripLine r.tripinfos with
    | .error _ => .caught
    | .ok lines => .ok lines

/-- A `<vehicle>` element inside a battery `<timestep>`. -/
structure BatVehicle where
  id : Option String
  energyConsumed : Option ℚ
  actualBatteryCapacity : Option ℚ
  maximumBatteryCapacity : Option ℚ

/-- A `<timestep>` element of the battery file. -/
structure BatTimestep where
  time : Option ℚ
  vehicles : List BatVehicle

/-- The root of the battery file. -/
structure BatRoot where
  timesteps : List BatTimestep

/-- The line printed for one battery vehicle, with the computed
percentage. -/
structure BatLine where
  id : Option String
  battery_capacity : ℚ
  max_capacity : ℚ
  battery_percent : ℚ
  energy_consumed : ℚ

/-- One printed battery item: a time header or a vehicle line. -/
inductive BatOut where
  | timeHeader (t : ℚ)
  | veh (l : BatLine)

/-- The per-vehicle body of the battery loop: all three numeric
attributes are read with defaults (`0`, `0`, `100000`), then
`battery_percent = (battery_capacity / max_capacity) * 100 if
max_capacity > 0 else 0`. -/
def batVehicleLine (v : BatVehicle) : BatLine :=
  let energy_consumed := v.energyConsumed.getD 0
  let battery_capacity := v.actualBatteryCapacity.getD 0
  let max_capacity := v.maximumBatteryCapacity.getD 100000
  { id := v.id
    battery_capacity := battery_capacity
    max_capacity := max_capacity
    battery_percent :=
      if max_capacity > 0 then battery_capacity / max_capacity * 100 else 0
    energy_consumed := energy_consumed }

/-- The timestep loop of `read_battery_data`: required `time` float
conversion; a header plus vehicle lines only when the timestep has
vehicles. -/
def batLoop : List BatTimestep → Except PyErr (List BatOut)
  | [] => .ok []
  | ts :: rest => do
    let t ← pyFloat ts.time
    let block := if ts.vehicles.isEmpty then ([] : List BatOut)
      else BatOut.timeHeader t :: ts.vehicles.map (fun v => BatOut.veh (batVehicleLine v))
    let restLines ← batLoop rest
    pure (block ++ restLines)

/-- `read_battery_data(file_path)`: `ET.ParseError` has its own handler
(the "Skipping (incomplete XML)" message), every other exception is
caught by `except Exception`. -/
def read_battery_data : XmlFile BatRoot → ReadOutcome (List BatOut)
  | .absent => .notFound
  | .malformed => .parseSkip
  | .parsed r =>
    match batLoop r.timesteps with
    | .error _ => .caught
    | .ok lines => .ok lines

/-- A `<chargingStation>` element inside a `<timestep>`. -/
structure ChargingStation where
  id : Option String
  totalEnergyCharged : Option ℚ
  chargingVehicles : Option ℤ

/-- A `<timestep>` element of the charging-stations file. -/
structure ChargingTimestep where
  time : Option ℚ
  stations : List ChargingStation

/-- The root of the charging-stations file. -/
structure ChargingRoot where
  timesteps : List ChargingTimestep

/-- One printed charging-stations item. -/
inductive ChargingOut where
  | timeHeader (t : ℚ)
  | stationLine (id : Option String) (power : ℚ) (occupancy : ℤ)

/-- The timestep loop of `read_charging_stations_data`: required
`time` float conversion; per-station attributes read with defaults. -/
def chargingLoop : List ChargingTimestep → Except PyErr (List ChargingOut)
  | [] => .ok []
  | ts :: rest => do
    let t ← pyFloat ts.time
    let block := if ts.stations.isEmpty then ([] : List ChargingOut)
      else ChargingOut.timeHeader t :: ts.stations.map (fun st =>
        ChargingOut.stationLine st.id (st.totalEnergyCharged.getD 0)
          (st.chargingVehicles.getD 0))
    let restLines ← chargingLoop rest
    pure (block ++ restLines)

/-- `read_charging_stations_data(file_path)`. -/
def read_charging_stations_data : XmlFile ChargingRoot → ReadOutcome (List ChargingOut)
  | .absent => .notFound
  | .malformed => .caught
  | .parsed r =>
    match chargingLoop r.timesteps with
    | .error _ => .caught
    | .ok lines => .ok lines

/-- The `file_sizes` dict of `monitor_simulation_live`, keyed by
`last_fcd_size`, `last_trip_size`, `last_charging_size`. -/
structure FileSizes where
  last_fcd_size : ℕ
  last_trip_size : ℕ
  last_charging_size : ℕ
deriving DecidableEq, Repr

/-- The initialization loop: every tracked size starts at `0`. -/
def initial_sizes : FileSizes := ⟨0, 0, 0⟩

/-- The directory contents at one polling instant:
`os.path.getsize(f)` for each monitored file when `os.path.exists(f)`,
`none` when the file does not exist. -/
structure DirState where
  fcd : Option ℕ
  tripinfo : Option ℕ
  chargingstations : Option ℕ

/-- An observable action of one iteration of the polling loop. -/
inductive MEvent where
  | updatedMsg (filename : String)
  | reread (filename : String)
  | sleep (seconds : ℕ)
deriving DecidableEq, Repr

/-- The per-file body of the polling loop: when the file exists and its
current size strictly exceeds the recorded size, record the current
size, print the updated message and re-read the file; otherwise do
nothing. -/
def checkFile (current : Option ℕ) (recorded : ℕ) (filename : String) :
    ℕ × List MEvent :=
  match current with
  | none => (recorded, [])
  | some n =>
    if n > recorded then (n, [.updatedMsg filename, .reread filename])
    else (recorded, [])

/-- One iteration of the `while True` loop of
`monitor_simulation_live`: check the three files in dict order, then
`time.sleep(1)`. -/
def monitor_step (d : DirState) (s : FileSizes) : FileSizes × List MEvent :=
  let r1 := checkFile d.fcd s.last_fcd_size "fcd.xml"
  let r2 := checkFile d.tripinfo s.last_trip_size "tripinfo.xml"
  let r3 := checkFile d.chargingstations s.last_charging_size "chargingstations.xml"
  (⟨r1.1, r2.1, r3.1⟩, r1.2 ++ r2.2 ++ r3.2 ++ [.sleep 1])

/-- Iterating the polling loop over a sequence of observed directory
states. -/
def monitor_run (ds : List DirState) (s : FileSizes) : FileSizes :=
  ds.foldl (fun s d => (monitor_step d s).1) s

/-- The files read, in order, by `read_all_files`. -/
def read_all_files_reads : List String :=
  ["fcd.xml", "tripinfo.xml", "chargingstations.xml"]

/-- What the `__main__` block of `vehicle_monitor.py` does. -/
inductive VMAction where
  | readAll (files : List String)
  | live
  | helpText
  | unknownOption
deriving DecidableEq, Repr

/-- The `__main__` dispatch of `vehicle_monitor.py` on the argument
list after the program name. -/
def vehicle_monitor_main (args : List String) : VMAction :=
  match args with
  | [] => .readAll read_all_files_reads
  | a :: _ =>
    if a = "--live" then .live
    else if a = "--help" then .helpText
    else .unknownOption

/-- The `__main__` block of `network_analyzer.py`: the analyzed file is
the first positional argument, defaulting to `Test1.net.xml`. -/
def net_main_file (args : List String) : String :=
  match args with
  | [] => "Test1.net.xml"
  | a :: _ => a

end VehicleMonitor

namespace VehicleMonitor

theorem checkFile_cases (cur : Option ℕ) (r0 : ℕ) (fn : String) :
    ((checkFile cur r0 fn).2 = [MEvent.updatedMsg fn, MEvent.reread fn]
        ∧ ∃ n, cur = some n ∧ r0 < n)
    ∨ ((checkFile cur r0 fn).2 = [] ∧ ¬ ∃ n, cur = some n ∧ r0 < n) := by
  cases cur with
  | none => right; simp [checkFile]
  | some n =>
    by_cases h : n > r0
    · left
      refine ⟨by simp [checkFile, h], n, rfl, h⟩
    · right
      refine ⟨by simp [checkFile, h], ?_⟩
      rintro ⟨m, hm, hlt⟩
      cases hm
      exact h hlt

theorem checkFile_fst (cur : Option ℕ) (r0 : ℕ) (fn : String) :
    (checkFile cur r0 fn).1 =
      match cur with
      | some n => if r0 < n then n else r0
      | none => r0 := by
  cases cur with
  | none => rfl
  | some n =>
    by_cases h : r0 < n
    · simp [checkFile, h]
    · simp [checkFile, h]

theorem checkFile_le (cur : Option ℕ) (r0 : ℕ) (fn : String) :
    r0 ≤ (checkFile cur r0 fn).1 := by
  rw [checkFile_fst]
  cases cur with
  | none => exact le_refl r0
  | some n =>
    by_cases h : r0 < n
    · simp [h]; exact le_of_lt h
    · simp [h]

theorem checkFile_events_names (cur : Option ℕ) (r0 : ℕ) (fn : String) :
    ∀ ev ∈ (checkFile cur r0 fn).2,
      ev = MEvent.updatedMsg fn ∨ ev = MEvent.reread fn := by
  intro ev hev
  rcases checkFile_cases cur r0 fn with ⟨he, _⟩ | ⟨he, _⟩ <;> rw [he] at hev
  · rcases List.mem_cons.mp hev with h | h
    · left; exact h
    · right; exact List.mem_singleton.mp h
  · exact absurd hev (List.not_mem_nil ev)

theorem step_file_iff (cur : Option ℕ) (r0 : ℕ) (fn : String)
    (pre post : List MEvent)
    (hpre : ∀ ev ∈ pre, ev ≠ MEvent.updatedMsg fn ∧ ev ≠ MEvent.reread fn)
    (hpost : ∀ ev ∈ post, ev ≠ MEvent.updatedMsg fn ∧ ev ≠ MEvent.reread fn) :
    ((MEvent.reread fn ∈ pre ++ ((checkFile cur r0 fn).2 ++ post)) ↔
        ∃ n, cur = some n ∧ r0 < n)
    ∧ ((∃ p q, pre ++ ((checkFile cur r0 fn).2 ++ post)
          = p ++ ([MEvent.updatedMsg fn, MEvent.reread fn] ++ q)) ↔
        ∃ n, cur = some n ∧ r0 < n) := by
  have hmem : MEvent.reread fn ∈ pre ++ ((checkFile cur r0 fn).2 ++ post) ↔
      ∃ n, cur = some n ∧ r0 < n := by
    constructor
    · intro h
      rcases List.mem_append.mp h with h1 | h2
      · exact absurd rfl (hpre _ h1).2
      rcases List.mem_append.mp h2 with h3 | h4
      · rcases checkFile_cases cur r0 fn with ⟨he, hc⟩ | ⟨he, _⟩
        · exact hc
        · rw [he] at h3; exact absurd h3 (List.not_mem_nil _)
      · exact absurd rfl (hpost _ h4).2
    · intro hc
      rcases checkFile_cases cur r0 fn with ⟨he, _⟩ | ⟨he, hnc⟩
      · rw [he]
        refine List.mem_append.mpr (Or.inr (List.mem_append.mpr (Or.inl ?_)))
        simp
      · exact absurd hc hnc
  refine ⟨hmem, ?_, ?_⟩
  · rintro ⟨p, q, hpq⟩
    apply hmem.mp
    rw [hpq]
    refine List.mem_append.mpr (Or.inr (List.mem_append.mpr (Or.inl ?_)))
    simp
  · intro hc
    rcases checkFile_cases cur r0 fn with ⟨he, _⟩ | ⟨he, hnc⟩
    · refine ⟨pre, post, ?_⟩
      rw [he]
    · exact absurd hc hnc

theorem monitor_step_events (d : DirState) (s : FileSizes) :
    (monitor_step d s).2 =
      (checkFile d.fcd s.last_fcd_size "fcd.xml").2
      ++ ((checkFile d.tripinfo s.last_trip_size "tripinfo.xml").2
      ++ ((checkFile d.chargingstations s.last_charging_size "chargingstations.xml").2
      ++ [MEvent.sleep 1])) := by
  unfold monitor_step
  simp [List.append_assoc]

theorem monitor_step_sizes (d : DirState) (s : FileSizes) :
    (monitor_step d s).1.last_fcd_size = (checkFile d.fcd s.last_fcd_size "fcd.xml").1
    ∧ (monitor_step d s).1.last_trip_size
        = (checkFile d.tripinfo s.last_trip_size "tripinfo.xml").1
    ∧ (monitor_step d s).1.last_charging_size
        = (checkFile d.chargingstations s.last_charging_size "chargingstations.xml").1 :=
  ⟨rfl, rfl, rfl⟩

end VehicleMonitor

namespace VehicleMonitor

theorem checkFile_events_ne (cur : Option ℕ) (r0 : ℕ) (fn fn2 : String)
    (hne : fn ≠ fn2) :
    ∀ ev ∈ (checkFile cur r0 fn).2,
      ev ≠ MEvent.updatedMsg fn2 ∧ ev ≠ MEvent.reread fn2 := by
  intro ev hev
  rcases checkFile_events_names cur r0 fn ev hev with h | h <;> subst h <;>
    exact ⟨by simp [hne], by simp [hne]⟩

theorem sleep_events_ne (fn2 : String) :
    ∀ ev ∈ [MEvent.sleep 1],
      ev ≠ MEvent.updatedMsg fn2 ∧ ev ≠ MEvent.reread fn2 := by
  intro ev hev
  rcases List.mem_singleton.mp hev with h
  subst h
  exact ⟨by simp, by simp⟩

theorem append_events_ne {l1 l2 : List MEvent} (fn2 : String)
    (h1 : ∀ ev ∈ l1, ev ≠ MEvent.updatedMsg fn2 ∧ ev ≠ MEvent.reread fn2)
    (h2 : ∀ ev ∈ l2, ev ≠ MEvent.updatedMsg fn2 ∧ ev ≠ MEvent.reread fn2) :
    ∀ ev ∈ l1 ++ l2, ev ≠ MEvent.updatedMsg fn2 ∧ ev ≠ MEvent.reread fn2 := by
  intro ev hev
  rcases List.mem_append.mp hev with h | h
  · exact h1 ev h
  · exact h2 ev h

end VehicleMonitor

open VehicleMonitor in
/-- C3: in every iteration of the `monitor_simulation_live` polling
loop, a monitored file is re-read exactly when it exists and its
current size strictly exceeds the recorded size (and then the
update message and the re-read happen together, with the recorded size
set to the current size); otherwise it is not re-read, and the
iteration ends with `time.sleep(1)`. -/
theorem c3_poll_semantics (d : DirState) (s : FileSizes) :
    ((MEvent.reread "fcd.xml" ∈ (monitor_step d s).2 ↔
        ∃ n, d.fcd = some n ∧ s.last_fcd_size < n)
      ∧ ((∃ p q, (monitor_step d s).2
            = p ++ ([MEvent.updatedMsg "fcd.xml", MEvent.reread "fcd.xml"] ++ q)) ↔
          ∃ n, d.fcd = some n ∧ s.last_fcd_size < n)
      ∧ (monitor_step d s).1.last_fcd_size =
          (match d.fcd with
            | some n => if s.last_fcd_size < n then n else s.last_fcd_size
            | none => s.last_fcd_size))
    ∧ ((MEvent.reread "tripinfo.xml" ∈ (monitor_step d s).2 ↔
        ∃ n, d.tripinfo = some n ∧ s.last_trip_size < n)
      ∧ ((∃ p q, (monitor_step d s).2
            = p ++ ([MEvent.updatedMsg "tripinfo.xml", MEvent.reread "tripinfo.xml"] ++ q)) ↔
          ∃ n, d.tripinfo = some n ∧ s.last_trip_size < n)
      ∧ (monitor_step d s).1.last_trip_size =
          (match d.tripinfo with
            | some n => if s.last_trip_size < n then n else s.last_trip_size
            | none => s.last_trip_size))
    ∧ ((MEvent.reread "chargingstations.xml" ∈ (monitor_step d s).2 ↔
        ∃ n, d.chargingstations = some n ∧ s.last_charging_size < n)
      ∧ ((∃ p q, (monitor_step d s).2
            = p ++ ([MEvent.updatedMsg "chargingstations.xml",
                MEvent.reread "chargingstations.xml"] ++ q)) ↔
          ∃ n, d.chargingstations = some n ∧ s.last_charging_size < n)
      ∧ (monitor_step d s).1.last_charging_size =
          (match d.chargingstations with
            | some n => if s.last_charging_size < n then n else s.last_charging_size
            | none => s.last_charging_size))
    ∧ (monitor_step d s).2.getLast? = some (MEvent.sleep 1) := by
  refine ⟨⟨?_, ?_, ?_⟩, ⟨?_, ?_, ?_⟩, ⟨?_, ?_, ?_⟩, ?_⟩
  case _ =>
    rw [monitor_step_events]
    have h := step_file_iff d.fcd s.last_fcd_size "fcd.xml" []
      ((checkFile d.tripinfo s.last_trip_size "tripinfo.xml").2
        ++ ((checkFile d.chargingstations s.last_charging_size "chargingstations.xml").2
        ++ [MEvent.sleep 1]))
      (by intro ev hev; exact absurd hev (List.not_mem_nil ev))
      (append_events_ne _ (checkFile_events_ne _ _ _ _ (by decide))
        (append_events_ne _ (checkFile_events_ne _ _ _ _ (by decide))
          (sleep_events_ne _)))
    simpa using h.1
  case _ =>
    rw [monitor_step_events]
    have h := step_file_iff d.fcd s.last_fcd_size "fcd.xml" []
      ((checkFile d.tripinfo s.last_trip_size "tripinfo.xml").2
        ++ ((checkFile d.chargingstations s.last_charging_size "chargingstations.xml").2
        ++ [MEvent.sleep 1]))
      (by intro ev hev; exact absurd hev (List.not_mem_nil ev))
      (append_events_ne _ (checkFile_events_ne _ _ _ _ (by decide))
        (append_events_ne _ (checkFile_events_ne _ _ _ _ (by decide))
          (sleep_events_ne _)))
    simpa using h.2
  case _ =>
    rw [(monitor_step_sizes d s).1, checkFile_fst]
  case _ =>
    rw [monitor_step_events]
    have h := step_file_iff d.tripinfo s.last_trip_size "tripinfo.xml"
      (checkFile d.fcd s.last_fcd_size "fcd.xml").2
      ((checkFile d.chargingstations s.last_charging_size "chargingstations.xml").2
        ++ [MEvent.sleep 1])
      (checkFile_events_ne _ _ _ _ (by decide))
      (append_events_ne _ (checkFile_events_ne _ _ _ _ (by decide))
        (sleep_events_ne _))
    simpa using h.1
  case _ =>
    rw [monitor_step_events]
    have h := step_file_iff d.tripinfo s.last_trip_size "tripinfo.xml"
      (checkFile d.fcd s.last_fcd_size "fcd.xml").2
      ((checkFile d.chargingstations s.last_charging_size "chargingstations.xml").2
        ++ [MEvent.sleep 1])
      (checkFile_events_ne _ _ _ _ (by decide))
      (append_events_ne _ (checkFile_events_ne _ _ _ _ (by decide))
        (sleep_events_ne _))
    simpa using h.2
  case _ =>
    rw [(monitor_step_sizes d s).2.1, checkFile_fst]
  case _ =>
    rw [monitor_step_events]
    have h := step_file_iff d.chargingstations s.last_charging_size "chargingstations.xml"
      ((checkFile d.fcd s.last_fcd_size "fcd.xml").2
        ++ (checkFile d.tripinfo s.last_trip_size "tripinfo.xml").2)
      [MEvent.sleep 1]
      (append_events_ne _ (checkFile_events_ne _ _ _ _ (by decide))
        (checkFile_events_ne _ _ _ _ (by decide)))
      (sleep_events_ne _)
    simpa [List.append_assoc] using h.1
  case _ =>
    rw [monitor_step_events]
    have h := step_file_iff d.chargingstations s.last_charging_size "chargingstations.xml"
      ((checkFile d.fcd s.last_fcd_size "fcd.xml").2
        ++ (checkFile d.tripinfo s.last_trip_size "tripinfo.xml").2)
      [MEvent.sleep 1]
      (append_events_ne _ (checkFile_events_ne _ _ _ _ (by decide))
        (checkFile_events_ne _ _ _ _ (by decide)))
      (sleep_events_ne _)
    simpa [List.append_assoc] using h.2
  case _ =>
    rw [(monitor_step_sizes d s).2.2, checkFile_fst]
  case _ =>
    rw [monitor_step_events]
    rw [List.getLast?_append_of_ne_nil, List.getLast?_append_of_ne_nil,
      List.getLast?_append_of_ne_nil]
    · rfl
    · simp
    · simp
    · simp

open VehicleMonitor in
/-- C9: every tracked file size starts at `0`, one polling iteration
either leaves a recorded size unchanged or assigns it a strictly larger
value, and the recorded sizes are monotonically non-decreasing across
any sequence of polling iterations. -/
theorem c9_sizes_monotone :
    (initial_sizes.last_fcd_size = 0 ∧ initial_sizes.last_trip_size = 0
      ∧ initial_sizes.last_charging_size = 0)
    ∧ (∀ (d : DirState) (s : FileSizes),
        ((monitor_step d s).1.last_fcd_size = s.last_fcd_size
          ∨ s.last_fcd_size < (monitor_step d s).1.last_fcd_size)
        ∧ ((monitor_step d s).1.last_trip_size = s.last_trip_size
          ∨ s.last_trip_size < (monitor_step d s).1.last_trip_size)
        ∧ ((monitor_step d s).1.last_charging_size = s.last_charging_size
          ∨ s.last_charging_size < (monitor_step d s).1.last_charging_size))
    ∧ (∀ (ds : List DirState) (s : FileSizes),
        s.last_fcd_size ≤ (monitor_run ds s).last_fcd_size
        ∧ s.last_trip_size ≤ (monitor_run ds s).last_trip_size
        ∧ s.last_charging_size ≤ (monitor_run ds s).last_charging_size) := by
  have hstep : ∀ (cur : Option ℕ) (r0 : ℕ) (fn : String),
      (checkFile cur r0 fn).1 = r0 ∨ r0 < (checkFile cur r0 fn).1 := by
    intro cur r0 fn
    rw [checkFile_fst]
    cases cur with
    | none => exact Or.inl rfl
    | some n =>
      by_cases h : r0 < n
      · right; simp only [if_pos h]; exact h
      · left; simp [h]
  refine ⟨⟨rfl, rfl, rfl⟩, ?_, ?_⟩
  · intro d s
    exact ⟨hstep d.fcd s.last_fcd_size _, hstep d.tripinfo s.last_trip_size _,
      hstep d.chargingstations s.last_charging_size _⟩
  · intro ds
    induction ds with
    | nil => intro s; exact ⟨le_refl _, le_refl _, le_refl _⟩
    | cons d rest ih =>
      intro s
      have h1 := ih (monitor_step d s).1
      have h2 : s.last_fcd_size ≤ (monitor_step d s).1.last_fcd_size :=
        checkFile_le d.fcd s.last_fcd_size "fcd.xml"
      have h3 : s.last_trip_size ≤ (monitor_step d s).1.last_trip_size :=
        checkFile_le d.tripinfo s.last_trip_size "tripinfo.xml"
      have h4 : s.last_charging_size ≤ (monitor_step d s).1.last_charging_size :=
        checkFile_le d.chargingstations s.last_charging_size "chargingstations.xml"
      exact ⟨le_trans h2 h1.1, le_trans h3 h1.2.1, le_trans h4 h1.2.2⟩

open VehicleMonitor in
/-- C5: the CLI dispatch of both scripts.  `vehicle_monitor.py` with no
arguments reads the three default files once; `--live` enters the
polling monitor; `--help` prints the usage text; any other first
argument prints the unknown-option message.  `network_analyzer.py`
analyzes the file named by its first positional argument, defaulting to
`Test1.net.xml`. -/
theorem c5_cli_dispatch :
    vehicle_monitor_main []
        = .readAll ["fcd.xml", "tripinfo.xml", "chargingstations.xml"]
    ∧ (∀ rest, vehicle_monitor_main ("--live" :: rest) = .live)
    ∧ (∀ rest, vehicle_monitor_main ("--help" :: rest) = .helpText)
    ∧ (∀ a rest, a ≠ "--live" → a ≠ "--help" →
        vehicle_monitor_main (a :: rest) = .unknownOption)
    ∧ net_main_file [] = "Test1.net.xml"
    ∧ (∀ a rest, net_main_file (a :: rest) = a) := by
  refine ⟨rfl, fun rest => rfl, fun rest => ?_, fun a rest h1 h2 => ?_, rfl, fun a rest => rfl⟩
  · show (if "--help" = "--live" then VMAction.live
      else if "--help" = "--help" then VMAction.helpText else VMAction.unknownOption) = _
    rw [if_neg (by decide), if_pos rfl]
  · show (if a = "--live" then VMAction.live
      else if a = "--help" then VMAction.helpText else VMAction.unknownOption) = _
    rw [if_neg h1, if_neg h2]

open VehicleMonitor in
/-- Witness for C5 at a concrete unknown option. -/
theorem c5_witness :
    ("--verbose" : String) ≠ "--live" ∧ ("--verbose" : String) ≠ "--help"
    ∧ vehicle_monitor_main ["--verbose"] = .unknownOption := by
  refine ⟨by decide, by decide, ?_⟩
  exact (c5_cli_dispatch).2.2.2.1 "--verbose" [] (by decide) (by decide)

open VehicleMonitor NetworkAnalyzer in
/-- C2: no top-level operation propagates an exception.
`analyze_network` returns `None` with a printed error message on any
parse or other failure and a value otherwise; each reader prints a
not-found message when the file is missing, and otherwise either
returns normally or ends in one of its `except` handlers — for every
possible input the outcome is one of these enumerated cases. -/
theorem c2_errors_never_propagate :
    (∀ f : XmlFile FcdRoot,
      (f = .absent ∧ read_fcd_data f = .notFound)
      ∨ (f = .malformed ∧ read_fcd_data f = .caught)
      ∨ (∃ r, f = .parsed r ∧
          (read_fcd_data f = .caught ∨ ∃ o, read_fcd_data f = .ok o)))
    ∧ (∀ f : XmlFile TripRoot,
      (f = .absent ∧ read_tripinfo_data f = .notFound)
      ∨ (f = .malformed ∧ read_tripinfo_data f = .caught)
      ∨ (∃ r, f = .parsed r ∧
          (read_tripinfo_data f = .caught ∨ ∃ o, read_tripinfo_data f = .ok o)))
    ∧ (∀ f : XmlFile BatRoot,
      (f = .absent ∧ read_battery_data f = .notFound)
      ∨ (f = .malformed ∧ read_battery_data f = .parseSkip)
      ∨ (∃ r, f = .parsed r ∧
          (read_battery_data f = .caught ∨ ∃ o, read_battery_data f = .ok o)))
    ∧ (∀ f : XmlFile ChargingRoot,
      (f = .absent ∧ read_charging_stations_data f = .notFound)
      ∨ (f = .malformed ∧ read_charging_stations_data f = .caught)
      ∨ (∃ r, f = .parsed r ∧
          (read_charging_stations_data f = .caught
            ∨ ∃ o, read_charging_stations_data f = .ok o)))
    ∧ (∀ nf : NetFile,
      ((analyze_network nf).1 = none ∧
        ((analyze_network nf).2 = .parseErrorMsg
          ∨ (analyze_network nf).2 = .analyzeErrorMsg))
      ∨ (∃ js es, nf = .parsed js es ∧
          analyze_network nf = (some (analyze_core js es), .reportMsg))) := by
  refine ⟨?_, ?_, ?_, ?_, ?_⟩
  · intro f
    cases f with
    | absent => exact Or.inl ⟨rfl, rfl⟩
    | malformed => exact Or.inr (Or.inl ⟨rfl, rfl⟩)
    | parsed r =>
      refine Or.inr (Or.inr ⟨r, rfl, ?_⟩)
      cases h : fcdLoop none r.timesteps with
      | error e => exact Or.inl (by simp [read_fcd_data, h])
      | ok ls => exact Or.inr ⟨ls, by simp [read_fcd_data, h]⟩
  · intro f
    cases f with
    | absent => exact Or.inl ⟨rfl, rfl⟩
    | malformed => exact Or.inr (Or.inl ⟨rfl, rfl⟩)
    | parsed r =>
      refine Or.inr (Or.inr ⟨r, rfl, ?_⟩)
      cases h : mapME tripLine r.tripinfos with
      | error e => exact Or.inl (by simp [read_tripinfo_data, h])
      | ok ls => exact Or.inr ⟨ls, by simp [read_tripinfo_data, h]⟩
  · intro f
    cases f with
    | absent => exact Or.inl ⟨rfl, rfl⟩
    | malformed => exact Or.inr (Or.inl ⟨rfl, rfl⟩)
    | parsed r =>
      refine Or.inr (Or.inr ⟨r, rfl, ?_⟩)
      cases h : batLoop r.timesteps with
      | error e => exact Or.inl (by simp [read_battery_data, h])
      | ok ls => exact Or.inr ⟨ls, by simp [read_battery_data, h]⟩
  · intro f
    cases f with
    | absent => exact Or.inl ⟨rfl, rfl⟩
    | malformed => exact Or.inr (Or.inl ⟨rfl, rfl⟩)
    | parsed r =>
      refine Or.inr (Or.inr ⟨r, rfl, ?_⟩)
      cases h : chargingLoop r.timesteps with
      | error e => exact Or.inl (by simp [read_charging_stations_data, h])
      | ok ls => exact Or.inr ⟨ls, by simp [read_charging_stations_data, h]⟩
  · intro nf
    cases nf with
    | ioError => exact Or.inl ⟨rfl, Or.inr rfl⟩
    | parseError => exact Or.inl ⟨rfl, Or.inl rfl⟩
    | parsed js es => exact Or.inr ⟨js, es, rfl, rfl⟩

namespace RunSimulation

/-- The values returned by the basic TraCI queries for one vehicle in
`_collect_data` (speed, position, lane, distance, waiting time, type). -/
structure BaseData where
  speed : ℚ
  x : ℚ
  y : ℚ
  lane_id : String
  distance : ℚ
  waiting_time : ℚ
  vtype : String
deriving DecidableEq, Repr

/-- Which `except` branch of the per-vehicle `try` fires when a basic
query raises: `traci.exceptions.TraCIException` (silent `continue`) or
any other `Exception` (warning printed, then `continue`). -/
inductive QueryFail where
  | traciException
  | otherException
deriving DecidableEq, Repr

/-- One vehicle as seen through TraCI at the current timestep: the
basic queries (which either all succeed or raise), and the five
battery-device parameter lookups of the inner `try`, each of which can
raise (device absent, parameter missing, or non-numeric value). -/
structure Veh where
  id : String
  base : Except QueryFail BaseData
  pcap : Except Unit ℚ
  pmax : Except Unit ℚ
  pcons : Except Unit ℚ
  pregen : Except Unit ℚ
  pstation : Except Unit String

/-- The five local variables set by the inner battery `try`, plus
whether the charging-event append was reached.  The inner block assigns
sequentially and `except: pass` keeps whatever was assigned before the
first failure. -/
structure BatVars where
  battery_capacity : ℚ
  max_battery : ℚ
  energy_consumed : ℚ
  energy_regen : ℚ
  charging_station : String
  charge_event : Bool
deriving DecidableEq, Repr

/-- Run the inner battery `try` of `_collect_data` for one vehicle.
Initial values: capacities and energies `0`, `charging_station =
"NULL"`.  The charging event is recorded only when all five parameter
reads succeed and the station id is truthy and not `"NULL"`. -/
def batteryVars (v : Veh) : BatVars :=
  match v.pcap with
  | .error _ => ⟨0, 0, 0, 0, "NULL", false⟩
  | .ok c =>
    match v.pmax with
    | .error _ => ⟨c, 0, 0, 0, "NULL", false⟩
    | .ok m =>
      match v.pcons with
      | .error _ => ⟨c, m, 0, 0, "NULL", false⟩
      | .ok cn =>
        match v.pregen with
        | .error _ => ⟨c, m, cn, 0, "NULL", false⟩
        | .ok rg =>
          match v.pstation with
          | .error _ => ⟨c, m, cn, rg, "NULL", false⟩
          | .ok sid =>
            if sid ≠ "" ∧ sid ≠ "NULL" then ⟨c, m, cn, rg, sid, true⟩
            else ⟨c, m, cn, rg, "NULL", false⟩

/-- `battery_soc_percent`:
`(battery_capacity / max_battery * 100) if max_battery > 0 else 0`. -/
def socPercent (battery_capacity max_battery : ℚ) : ℚ :=
  if max_battery > 0 then battery_capacity / max_battery * 100 else 0

/-- One element of `self.charging_events`. -/
structure ChargingEvent where
  timestep : ℚ
  vehicle_id : String
  vehicle_type : String
  charging_station : String
  battery_soc_percent : ℚ
deriving DecidableEq, Repr

/-- One element of `self.battery_data`. -/
structure BatteryRecord where
  timestep_sec : ℚ
  vehicle_id : String
  vehicle_type : String
  actualBatteryCapacity_Wh : ℚ
  maximumBatteryCapacity_Wh : ℚ
  battery_soc_percent : ℚ
  totalEnergyConsumed_Wh : ℚ
  totalEnergyRegenerated_Wh : ℚ
  netEnergyUsed_Wh : ℚ
  chargingStationId : String
  speed_ms : ℚ
  speed_kmh : ℚ
  x_position_m : ℚ
  y_position_m : ℚ
  lane : String
  distance_traveled_m : ℚ
  waiting_time_sec : ℚ
deriving DecidableEq, Repr

/-- One element of `self.realtime_data`. -/
structure RealtimeRecord where
  timestep_sec : ℚ
  vehicle_id : String
  vehicle_type : String
  speed_ms : ℚ
  speed_kmh : ℚ
  x_position_m : ℚ
  y_position_m : ℚ
  lane : String
  distance_traveled_m : ℚ
  waiting_time_sec : ℚ
deriving DecidableEq, Repr

/-- One value of the `self.trip_data` dict. -/
structure TripEntry where
  vehicle_id : String
  vehicle_type : String
  depart_time : ℚ
  max_speed_kmh : ℚ
  total_waiting_time : ℚ
  final_distance : ℚ
deriving DecidableEq, Repr

/-- The mutable collections of `Test1SUMOExporter` touched by
`_collect_data` (`trip_data` is a dict in insertion order). -/
structure CState where
  battery_data : List BatteryRecord
  realtime_data : List RealtimeRecord
  trip_data : List (String × TripEntry)
  charging_events : List ChargingEvent
deriving DecidableEq, Repr

/-- The empty containers set up in `__init__`. -/
def initState : CState := ⟨[], [], [], []⟩

/-- The battery-data record appended when `max_battery > 0`. -/
def batteryRecord (t : ℚ) (v : Veh) (b : BaseData) (bv : BatVars) : BatteryRecord :=
  { timestep_sec := t
    vehicle_id := v.id
    vehicle_type := b.vtype
    actualBatteryCapacity_Wh := bv.battery_capacity
    maximumBatteryCapacity_Wh := bv.max_battery
    battery_soc_percent := socPercent bv.battery_capacity bv.max_battery
    totalEnergyConsumed_Wh := bv.energy_consumed
    totalEnergyRegenerated_Wh := bv.energy_regen
    netEnergyUsed_Wh := bv.energy_consumed - bv.energy_regen
    chargingStationId := bv.charging_station
    speed_ms := b.speed
    speed_kmh := b.speed * (18 / 5)
    x_position_m := b.x
    y_position_m := b.y
    lane := b.lane_id
    distance_traveled_m := b.distance
    waiting_time_sec := b.waiting_time }

/-- The realtime-data record appended for every successfully queried
vehicle. -/
def realtimeRecord (t : ℚ) (v : Veh) (b : BaseData) : RealtimeRecord :=
  { timestep_sec := t
    vehicle_id := v.id
    vehicle_type := b.vtype
    speed_ms := b.speed
    speed_kmh := b.speed * (18 / 5)
    x_position_m := b.x
    y_position_m := b.y
    lane := b.lane_id
    distance_traveled_m := b.distance
    waiting_time_sec := b.waiting_time }

/-- `veh_id in self.trip_data` for the dict modelled as an assoc
list. -/
def tripMem (d : List (String × TripEntry)) (k : String) : Bool :=
  d.any (fun p => p.1 == k)

/-- In-place update `self.trip_data[veh_id] = f(...)` for an existing
key. -/
def tripUpdate (d : List (String × TripEntry)) (k : String)
    (f : TripEntry → TripEntry) : List (String × TripEntry) :=
  d.map (fun p => if p.1 == k then (p.1, f p.2) else p)

/-- The trip-data bookkeeping at the end of the per-vehicle block:
insert the initial entry when the key is new, then update
`max_speed_kmh`, `total_waiting_time` and `final_distance`. -/
def tripStep (t : ℚ) (v : Veh) (b : BaseData)
    (d : List (String × TripEntry)) : List (String × TripEntry) :=
  let d1 := if tripMem d v.id then d
    else d ++ [(v.id, ⟨v.id, b.vtype, t, 0, 0, 0⟩)]
  tripUpdate d1 v.id (fun e =>
    { e with
      max_speed_kmh := max e.max_speed_kmh (b.speed * (18 / 5))
      total_waiting_time := e.total_waiting_time + b.waiting_time
      final_distance := b.distance })

/-- The per-vehicle body of `_collect_data`: if any basic query raises,
both `except` branches `continue` without touching the state; otherwise
run the inner battery `try`, append the charging event when reached,
append the battery record when `max_battery > 0`, always append the
realtime record, and update the trip data. -/
def collectStep (t : ℚ) (s : CState) (v : Veh) : CState :=
  match v.base with
  | .error _ => s
  | .ok b =>
    let bv := batteryVars v
    let s1 := if bv.charge_event then
        { s with charging_events := s.charging_events
            ++ [⟨t, v.id, b.vtype, bv.charging_station,
                socPercent bv.battery_capacity bv.max_battery⟩] }
      else s
    let s2 := if bv.max_battery > 0 then
        { s1 with battery_data := s1.battery_data ++ [batteryRecord t v b bv] }
      else s1
    let s3 := { s2 with realtime_data := s2.realtime_data ++ [realtimeRecord t v b] }
    { s3 with trip_data := tripStep t v b s3.trip_data }

/-- `_collect_data(simulation_time)`: the loop over
`traci.vehicle.getIDList()`. -/
def collect_data (t : ℚ) (vehicle_ids : List Veh) (s : CState) : CState :=
  vehicle_ids.foldl (collectStep t) s

end RunSimulation

namespace VehicleMonitor

theorem bindE_ok {ε α β : Type} (a : α) (g : α → Except ε β) :
    (Except.ok a >>= g) = g a := rfl

theorem bindE_error {ε α β : Type} (e : ε) (g : α → Except ε β) :
    ((Except.error e : Except ε α) >>= g) = Except.error e := rfl

theorem pureE {ε α : Type} (a : α) : (pure a : Except ε α) = Except.ok a := rfl

theorem mapME_ok_mem {α β : Type} (f : α → Except PyErr β) :
    ∀ (l : List α) (out : List β), mapME f l = .ok out →
      ∀ y ∈ out, ∃ x ∈ l, f x = .ok y := by
  intro l
  induction l with
  | nil =>
    intro out h y hy
    rw [mapME] at h
    cases h
    exact absurd hy (List.not_mem_nil y)
  | cons x xs ih =>
    intro out h y hy
    rw [mapME] at h
    cases hf : f x with
    | error e => rw [hf, bindE_error] at h; simp at h
    | ok y0 =>
      rw [hf, bindE_ok] at h
      cases hm : mapME f xs with
      | error e => rw [hm, bindE_error] at h; simp at h
      | ok ys =>
        rw [hm, bindE_ok, pureE] at h
        cases h
        rcases List.mem_cons.mp hy with h1 | h1
        · exact ⟨x, List.mem_cons_self x xs, h1 ▸ hf⟩
        · rcases ih ys hm y h1 with ⟨x2, hx2, hfx2⟩
          exact ⟨x2, List.mem_cons_of_mem x hx2, hfx2⟩

theorem tripLine_avg (ti : TripInfo) (l : TripLine) (h : tripLine ti = .ok l) :
    l.avg_speed = if 0 < l.duration then l.route_length / l.duration else 0 := by
  rw [tripLine] at h
  cases h1 : pyFloat ti.depart with
  | error e => rw [h1, bindE_error] at h; simp at h
  | ok depart =>
    rw [h1, bindE_ok] at h
    cases h2 : pyFloat ti.arrival with
    | error e => rw [h2, bindE_error] at h; simp at h
    | ok arrival =>
      rw [h2, bindE_ok] at h
      cases h3 : pyFloat ti.duration with
      | error e => rw [h3, bindE_error] at h; simp at h
      | ok duration =>
        rw [h3, bindE_ok] at h
        cases h4 : pyFloat ti.routeLength with
        | error e => rw [h4, bindE_error] at h; simp at h
        | ok route_length =>
          rw [h4, bindE_ok] at h
          cases h5 : pyFloat ti.maxSpeed with
          | error e => rw [h5, bindE_error] at h; simp at h
          | ok max_speed =>
            rw [h5, bindE_ok, pureE] at h
            cases h
            rfl

theorem batLoop_ok_mem :
    ∀ (tss : List BatTimestep) (out : List BatOut), batLoop tss = .ok out →
      ∀ l, BatOut.veh l ∈ out → ∃ ts ∈ tss, ∃ v ∈ ts.vehicles, l = batVehicleLine v := by
  intro tss
  induction tss with
  | nil =>
    intro out h l hl
    rw [batLoop] at h
    cases h
    exact absurd hl (List.not_mem_nil _)
  | cons ts rest ih =>
    intro out h l hl
    rw [batLoop] at h
    cases h1 : pyFloat ts.time with
    | error e => rw [h1, bindE_error] at h; simp at h
    | ok t =>
      rw [h1, bindE_ok] at h
      cases h2 : batLoop rest with
      | error e => rw [h2, bindE_error] at h; simp at h
      | ok restLines =>
        rw [h2, bindE_ok, pureE] at h
        cases h
        rcases List.mem_append.mp hl with h3 | h3
        · by_cases hemp : ts.vehicles.isEmpty
          · rw [if_pos hemp] at h3
            exact absurd h3 (List.not_mem_nil _)
          · rw [if_neg hemp] at h3
            rcases List.mem_cons.mp h3 with h4 | h4
            · exact absurd h4 (by simp)
            · rcases List.mem_map.mp h4 with ⟨v, hv, hveq⟩
              refine ⟨ts, List.mem_cons_self ts rest, v, hv, ?_⟩
              injection hveq with h5
              exact h5.symm
        · rcases ih restLines h2 l h3 with ⟨ts2, hts2, v, hv, hveq⟩
          exact ⟨ts2, List.mem_cons_of_mem ts hts2, v, hv, hveq⟩

end VehicleMonitor

namespace RunSimulation

theorem collectStep_battery_data (t : ℚ) (s : CState) (v : Veh) :
    (collectStep t s v).battery_data = s.battery_data ++
      (match v.base with
        | .error _ => []
        | .ok b => if (batteryVars v).max_battery > 0
            then [batteryRecord t v b (batteryVars v)] else []) := by
  cases hb : v.base with
  | error e => simp [collectStep, hb]
  | ok b =>
    by_cases h1 : (batteryVars v).charge_event <;>
      by_cases h2 : (batteryVars v).max_battery > 0 <;>
        simp [collectStep, hb, h1, h2]

theorem collectStep_realtime_data (t : ℚ) (s : CState) (v : Veh) :
    (collectStep t s v).realtime_data = s.realtime_data ++
      (match v.base with
        | .error _ => []
        | .ok b => [realtimeRecord t v b]) := by
  cases hb : v.base with
  | error e => simp [collectStep, hb]
  | ok b =>
    by_cases h1 : (batteryVars v).charge_event <;>
      by_cases h2 : (batteryVars v).max_battery > 0 <;>
        simp [collectStep, hb, h1, h2]

theorem collectStep_charging_events (t : ℚ) (s : CState) (v : Veh) :
    (collectStep t s v).charging_events = s.charging_events ++
      (match v.base with
        | .error _ => []
        | .ok b => if (batteryVars v).charge_event
            then [⟨t, v.id, b.vtype, (batteryVars v).charging_station,
              socPercent (batteryVars v).battery_capacity (batteryVars v).max_battery⟩]
            else []) := by
  cases hb : v.base with
  | error e => simp [collectStep, hb]
  | ok b =>
    by_cases h1 : (batteryVars v).charge_event <;>
      by_cases h2 : (batteryVars v).max_battery > 0 <;>
        simp [collectStep, hb, h1, h2]

end RunSimulation

open RunSimulation in
/-- C7: an error raised while querying one vehicle in `_collect_data`
is caught (both `except` branches `continue`): the failing vehicle
leaves the state untouched, and collecting over a vehicle list
containing it gives exactly the collections obtained with that vehicle
removed — records appended for other vehicles and all previously
collected data are unchanged. -/
theorem c7_query_error_isolated :
    (∀ (t : ℚ) (s : CState) (v : Veh) (e : QueryFail),
        v.base = .error e → collectStep t s v = s)
    ∧ (∀ (t : ℚ) (xs ys : List Veh) (v : Veh) (s : CState) (e : QueryFail),
        v.base = .error e →
        collect_data t (xs ++ v :: ys) s = collect_data t (xs ++ ys) s) := by
  have hstep : ∀ (t : ℚ) (s : CState) (v : Veh) (e : QueryFail),
      v.base = .error e → collectStep t s v = s := by
    intro t s v e h
    simp [collectStep, h]
  refine ⟨hstep, ?_⟩
  intro t xs ys v s e h
  rw [collect_data, collect_data, List.foldl_append, List.foldl_append,
    List.foldl_cons, hstep t _ v e h]

namespace RunSimulation

/-- Basic query results for the concrete witness vehicle. -/
def baseW : BaseData := ⟨10, 1, 2, "E0_0", 100, 0, "ev_bike"⟩

/-- A witness vehicle whose basic queries succeed and whose battery
device reports a maximum capacity of 10000 Wh. -/
def vOkW : Veh := ⟨"veh_ok", .ok baseW, .ok 5000, .ok 10000, .ok 30, .ok 2, .ok "NULL"⟩

/-- A witness vehicle whose basic queries raise a TraCI exception. -/
def vBadW : Veh :=
  ⟨"veh_bad", .error .traciException, .error (), .error (), .error (), .error (),
    .error ()⟩

end RunSimulation

open RunSimulation in
/-- Witness for C7: the failing vehicle `vBadW` contributes nothing and
does not disturb the collection for `vOkW`. -/
theorem c7_witness :
    vBadW.base = .error .traciException
    ∧ collect_data 0 ([vOkW] ++ vBadW :: []) initState
        = collect_data 0 ([vOkW] ++ []) initState :=
  ⟨rfl, (c7_query_error_isolated).2 0 [vOkW] [] vBadW initState .traciException rfl⟩

open RunSimulation in
/-- C10: `_collect_data` appends a battery record for a successfully
queried vehicle iff the parsed maximum battery capacity is strictly
positive, appends a realtime record for every successfully queried
vehicle, keeps the invariant that every stored battery record has
`maximumBatteryCapacity_Wh > 0`, and appends at most as many battery
records as realtime records. -/
theorem c10_battery_record_guard :
    (∀ (t : ℚ) (s : CState) (v : Veh),
      (collectStep t s v).battery_data = s.battery_data ++
        (match v.base with
          | .error _ => []
          | .ok b => if 0 < (batteryVars v).max_battery
              then [batteryRecord t v b (batteryVars v)] else []))
    ∧ (∀ (t : ℚ) (s : CState) (v : Veh),
      (collectStep t s v).realtime_data = s.realtime_data ++
        (match v.base with
          | .error _ => []
          | .ok b => [realtimeRecord t v b]))
    ∧ (∀ (t : ℚ) (vs : List Veh) (s : CState),
        (∀ r ∈ s.battery_data, 0 < r.maximumBatteryCapacity_Wh) →
        ∀ r ∈ (collect_data t vs s).battery_data, 0 < r.maximumBatteryCapacity_Wh)
    ∧ (∀ (t : ℚ) (vs : List Veh) (s : CState),
        (collect_data t vs s).battery_data.length + s.realtime_data.length
          ≤ (collect_data t vs s).realtime_data.length + s.battery_data.length) := by
  refine ⟨collectStep_battery_data, collectStep_realtime_data, ?_, ?_⟩
  · intro t vs
    induction vs with
    | nil => intro s hs r hr; exact hs r hr
    | cons v rest ih =>
      intro s hs r hr
      rw [collect_data, List.foldl_cons] at hr
      refine ih (collectStep t s v) ?_ r hr
      intro r2 hr2
      rw [collectStep_battery_data] at hr2
      rcases List.mem_append.mp hr2 with h | h
      · exact hs r2 h
      · cases hb : v.base with
        | error e => rw [hb] at h; exact absurd h (List.not_mem_nil r2)
        | ok b =>
          rw [hb] at h
          change r2 ∈ (if (batteryVars v).max_battery > 0
            then [batteryRecord t v b (batteryVars v)] else []) at h
          by_cases hm : 0 < (batteryVars v).max_battery
          · rw [if_pos hm] at h
            rw [List.mem_singleton.mp h]
            exact hm
          · rw [if_neg hm] at h
            exact absurd h (List.not_mem_nil r2)
  · have hsteplen : ∀ (t : ℚ) (s : CState) (v : Veh),
        (collectStep t s v).battery_data.length + s.realtime_data.length
          ≤ (collectStep t s v).realtime_data.length + s.battery_data.length := by
      intro t s v
      rw [collectStep_battery_data, collectStep_realtime_data]
      cases hb : v.base with
      | error e => simp only [List.append_nil]; omega
      | ok b =>
        by_cases hm : 0 < (batteryVars v).max_battery
        · simp only [if_pos hm, List.length_append, List.length_singleton]
          omega
        · simp only [if_neg hm, List.append_nil, List.length_append]
          omega
    intro t vs
    induction vs with
    | nil => intro s; simp [collect_data]; omega
    | cons v rest ih =>
      intro s
      have h1 := ih (collectStep t s v)
      have h2 := hsteplen t s v
      rw [collect_data, List.foldl_cons]
      rw [collect_data] at h1
      omega

open RunSimulation in
/-- Witness for C10: collecting with `vOkW` (maximum capacity 10000)
stores its battery record, and the invariant instantiated from the
empty initial state shows that record's maximum capacity is positive. -/
theorem c10_witness :
    batteryRecord 0 vOkW baseW (batteryVars vOkW)
        ∈ (collect_data 0 [vOkW] initState).battery_data
    ∧ 0 < (batteryRecord 0 vOkW baseW (batteryVars vOkW)).maximumBatteryCapacity_Wh := by
  have hpos : 0 < (batteryVars vOkW).max_battery := by decide
  have hlist : (collect_data 0 [vOkW] initState).battery_data
      = [batteryRecord 0 vOkW baseW (batteryVars vOkW)] := by
    rw [show collect_data 0 [vOkW] initState = collectStep 0 initState vOkW from rfl]
    rw [collectStep_battery_data]
    change ([] : List BatteryRecord)
      ++ (if (batteryVars vOkW).max_battery > 0
        then [batteryRecord 0 vOkW baseW (batteryVars vOkW)] else []) = _
    rw [if_pos hpos]
    rfl
  have hmem : batteryRecord 0 vOkW baseW (batteryVars vOkW)
      ∈ (collect_data 0 [vOkW] initState).battery_data := by
    rw [hlist]
    exact List.mem_singleton_self _
  exact ⟨hmem, (c10_battery_record_guard).2.2.1 0 [vOkW] initState
    (fun r hr => absurd hr (List.not_mem_nil r)) _ hmem⟩

open VehicleMonitor RunSimulation in
/-- C8: every record-level ratio is guarded so that a non-positive
denominator yields 0: the trip-info average speed, the battery reader's
state-of-charge percentage, and the `battery_soc_percent` written into
`_collect_data`'s battery records and charging events. -/
theorem c8_ratio_guards :
    (∀ (f : XmlFile TripRoot) (out : List TripLine) (l : TripLine),
        read_tripinfo_data f = .ok out → l ∈ out →
        (0 < l.duration → l.avg_speed = l.route_length / l.duration)
        ∧ (l.duration ≤ 0 → l.avg_speed = 0))
    ∧ (∀ (f : XmlFile BatRoot) (out : List BatOut) (l : BatLine),
        read_battery_data f = .ok out → BatOut.veh l ∈ out →
        (0 < l.max_capacity →
          l.battery_percent = l.battery_capacity / l.max_capacity * 100)
        ∧ (l.max_capacity ≤ 0 → l.battery_percent = 0))
    ∧ (∀ c m : ℚ,
        (0 < m → socPercent c m = c / m * 100) ∧ (m ≤ 0 → socPercent c m = 0))
    ∧ (∀ (t : ℚ) (s : CState) (v : Veh) (r : BatteryRecord),
        r ∈ (collectStep t s v).battery_data →
        r ∈ s.battery_data ∨ r.battery_soc_percent
          = socPercent r.actualBatteryCapacity_Wh r.maximumBatteryCapacity_Wh)
    ∧ (∀ (t : ℚ) (s : CState) (v : Veh) (e : ChargingEvent),
        e ∈ (collectStep t s v).charging_events →
        e ∈ s.charging_events ∨ e.battery_soc_percent
          = socPercent (batteryVars v).battery_capacity (batteryVars v).max_battery) := by
  refine ⟨?_, ?_, ?_, ?_, ?_⟩
  · intro f out l hf hl
    cases f with
    | absent => simp [read_tripinfo_data] at hf
    | malformed => simp [read_tripinfo_data] at hf
    | parsed r =>
      cases hm : mapME tripLine r.tripinfos with
      | error e => simp [read_tripinfo_data, hm] at hf
      | ok ls =>
        simp only [read_tripinfo_data, hm] at hf
        cases hf
        rcases mapME_ok_mem tripLine r.tripinfos _ hm l hl with ⟨ti, _, hti⟩
        have havg := tripLine_avg ti l hti
        constructor
        · intro hd
          rw [havg, if_pos hd]
        · intro hd
          rw [havg, if_neg (not_lt.mpr hd)]
  · intro f out l hf hl
    cases f with
    | absent => simp [read_battery_data] at hf
    | malformed => simp [read_battery_data] at hf
    | parsed r =>
      cases hm : batLoop r.timesteps with
      | error e => simp [read_battery_data, hm] at hf
      | ok ls =>
        simp only [read_battery_data, hm] at hf
        cases hf
        rcases batLoop_ok_mem r.timesteps _ hm l hl with ⟨ts, _, v, _, hlv⟩
        subst hlv
        constructor
        · intro hp
          change (if (batVehicleLine v).max_capacity > 0
            then (batVehicleLine v).battery_capacity
              / (batVehicleLine v).max_capacity * 100 else 0) = _
          rw [if_pos hp]
        · intro hp
          change (if (batVehicleLine v).max_capacity > 0
            then (batVehicleLine v).battery_capacity
              / (batVehicleLine v).max_capacity * 100 else 0) = _
          rw [if_neg (not_lt.mpr hp)]
  · intro c m
    constructor
    · intro hm
      rw [socPercent, if_pos hm]
    · intro hm
      rw [socPercent, if_neg (not_lt.mpr hm)]
  · intro t s v r hr
    rw [collectStep_battery_data] at hr
    rcases List.mem_append.mp hr with h | h
    · exact Or.inl h
    · cases hb : v.base with
      | error e => rw [hb] at h; exact absurd h (List.not_mem_nil r)
      | ok b =>
        rw [hb] at h
        change r ∈ (if (batteryVars v).max_battery > 0
          then [batteryRecord t v b (batteryVars v)] else []) at h
        by_cases hm : 0 < (batteryVars v).max_battery
        · rw [if_pos hm] at h
          rw [List.mem_singleton.mp h]
          exact Or.inr rfl
        · rw [if_neg hm] at h
          exact absurd h (List.not_mem_nil r)
  · intro t s v e he
    rw [collectStep_charging_events] at he
    rcases List.mem_append.mp he with h | h
    · exact Or.inl h
    · cases hb : v.base with
      | error e2 => rw [hb] at h; exact absurd h (List.not_mem_nil e)
      | ok b =>
        rw [hb] at h
        change e ∈ (if (batteryVars v).charge_event
          then [⟨t, v.id, b.vtype, (batteryVars v).charging_station,
            socPercent (batteryVars v).battery_capacity
              (batteryVars v).max_battery⟩] else []) at h
        by_cases hc : (batteryVars v).charge_event
        · rw [if_pos hc] at h
          rw [List.mem_singleton.mp h]
          exact Or.inr rfl
        · rw [if_neg hc] at h
          exact absurd h (List.not_mem_nil e)

namespace VehicleMonitor

/-- A concrete `<tripinfo>` element for the C8 witness: duration 10,
route length 100. -/
def tiW : TripInfo := ⟨some "veh_ok", some "ev", some 0, some 10, some 10, some 100, some 20⟩

/-- The trip-info file containing just `tiW`. -/
def tripFileW : XmlFile TripRoot := .parsed ⟨[tiW]⟩

/-- The printed block for `tiW`, with the computed average speed. -/
def tripLineW : TripLine :=
  ⟨some "veh_ok", some "ev", 0, 10, 10, 100, 20,
    if (10 : ℚ) > 0 then (100 : ℚ) / 10 else 0⟩

end VehicleMonitor

open VehicleMonitor in
/-- Witness for C8 at a concrete trip-info file: the record has
duration 10 > 0 and its average speed equals route length divided by
duration. -/
theorem c8_witness :
    read_tripinfo_data tripFileW = .ok [tripLineW]
    ∧ tripLineW ∈ [tripLineW]
    ∧ 0 < tripLineW.duration
    ∧ tripLineW.avg_speed = tripLineW.route_length / tripLineW.duration := by
  have hd : 0 < tripLineW.duration := by decide
  refine ⟨rfl, List.mem_singleton_self _, hd, ?_⟩
  exact ((c8_ratio_guards).1 tripFileW [tripLineW] tripLineW rfl
    (List.mem_singleton_self _)).1 hd
